import Mathlib

/-!
Verification development for the `delayt` API latency testing tool.

The backend core (`backend/src/analytics.ts`, `backend/src/runner.ts`,
`backend/src/server.ts`, `backend/src/db/schema.ts` and the class-based
`Analytics` module) is shallowly embedded below.  JavaScript numbers are
modelled as exact rationals (`ℚ`), byte counts and timestamps as integers,
and the stateful pieces (the run store, the rate-limit map) as explicit
state passed through pure functions.
-/

attribute [local semireducible] Rat.add Rat.mul Rat.sub Rat.inv

/-! ### JavaScript numeric helpers -/

/-- JavaScript `Math.round` for the nonnegative values occurring here:
`Math.round(x) = ⌊x + 0.5⌋`. -/
def jsRound (q : ℚ) : ℤ := ⌊q + 1/2⌋

/-- `Math.round(x * 100) / 100` — rounding to two decimals, as used for
`error_rate` and `success_rate` in `getEndpointAnalytics`. -/
def round2 (q : ℚ) : ℚ := (jsRound (q * 100) : ℚ) / 100

lemma floor_half_pair (q : ℚ) :
    ⌊q + 1/2⌋ + ⌊1/2 - q⌋ = if Int.fract q = 1/2 then 1 else 0 := by
  have hsplit : ((⌊q⌋ : ℚ) + Int.fract q) = q := Int.floor_add_fract q
  have h0 : 0 ≤ Int.fract q := Int.fract_nonneg q
  have h1 : Int.fract q < 1 := Int.fract_lt_one q
  set f := Int.fract q with hf
  have e1 : q + 1/2 = (⌊q⌋ : ℚ) + (f + 1/2) := by linarith
  have e2 : 1/2 - q = ((-⌊q⌋ : ℤ) : ℚ) + (1/2 - f) := by push_cast; linarith
  rw [e1, e2, Int.floor_int_add, Int.floor_int_add]
  rcases lt_trichotomy f (1/2) with hlt | heq | hgt
  · have hA : ⌊f + 1/2⌋ = 0 := by
      rw [Int.floor_eq_iff] <;> constructor <;> push_cast <;> linarith
    have hB : ⌊1/2 - f⌋ = 0 := by
      rw [Int.floor_eq_iff] <;> constructor <;> push_cast <;> linarith
    rw [hA, hB, if_neg (by intro hc; exact absurd hc (ne_of_lt hlt))]
    ring
  · have hA : ⌊f + 1/2⌋ = 1 := by
      rw [Int.floor_eq_iff] <;> constructor <;> push_cast <;> linarith
    have hB : ⌊1/2 - f⌋ = 0 := by
      rw [Int.floor_eq_iff] <;> constructor <;> push_cast <;> linarith
    rw [hA, hB, if_pos heq]
    ring
  · have hA : ⌊f + 1/2⌋ = 1 := by
      rw [Int.floor_eq_iff] <;> constructor <;> push_cast <;> linarith
    have hB : ⌊1/2 - f⌋ = -1 := by
      rw [Int.floor_eq_iff] <;> constructor <;> push_cast <;> linarith
    rw [hA, hB, if_neg (by intro hc; exact absurd hc.symm (ne_of_lt hgt))]
    ring

/-- The two-decimal roundings of `x` and of `100 - x` add up to exactly
`100`, except when `x * 100` lands exactly on a half-integer, in which
case both are rounded up and the sum is `100.01`. -/
lemma round2_pair (x : ℚ) :
    round2 x + round2 (100 - x) =
      100 + (if Int.fract (x * 100) = 1/2 then 1/100 else 0) := by
  unfold round2 jsRound
  have h : (100 - x) * 100 + 1/2 = ((10000 : ℤ) : ℚ) + (1/2 - x * 100) := by
    push_cast; ring
  rw [h, Int.floor_int_add]
  have hp := floor_half_pair (x * 100)
  by_cases hc : Int.fract (x * 100) = 1/2
  · rw [if_pos hc] at hp ⊢
    have hcast : ((⌊x * 100 + 1/2⌋ : ℚ) + (⌊1/2 - x * 100⌋ : ℚ)) = 1 := by
      exact_mod_cast congrArg (fun z : ℤ => (z : ℚ)) hp
    push_cast
    push_cast at hcast
    linarith
  · rw [if_neg hc] at hp ⊢
    have hcast : ((⌊x * 100 + 1/2⌋ : ℚ) + (⌊1/2 - x * 100⌋ : ℚ)) = 0 := by
      exact_mod_cast congrArg (fun z : ℤ => (z : ℚ)) hp
    push_cast
    push_cast at hcast
    linarith

/-! ### Ascending numeric sort (JS `array.sort((a, b) => a - b)`) -/

/-- JS `[...data].sort((a, b) => a - b)`: a stable ascending numeric sort. -/
def sortAsc (data : List ℚ) : List ℚ := List.insertionSort (· ≤ ·) data

lemma sortAsc_perm (data : List ℚ) : (sortAsc data).Perm data :=
  List.perm_insertionSort _ _

lemma sortAsc_sorted (data : List ℚ) : List.Sorted (· ≤ ·) (sortAsc data) :=
  List.sorted_insertionSort _ _

lemma sortAsc_eq_of_perm {l₁ l₂ : List ℚ} (h : l₁.Perm l₂) :
    sortAsc l₁ = sortAsc l₂ :=
  List.eq_of_perm_of_sorted (((sortAsc_perm l₁).trans h).trans (sortAsc_perm l₂).symm)
    (sortAsc_sorted l₁) (sortAsc_sorted l₂)

lemma sortAsc_length (data : List ℚ) : (sortAsc data).length = data.length :=
  (sortAsc_perm data).length_eq

lemma sortAsc_eq_nil_iff {data : List ℚ} : sortAsc data = [] ↔ data = [] := by
  constructor <;> intro h
  · have hl := (sortAsc_perm data).length_eq
    rw [h] at hl
    exact List.length_eq_zero.mp hl.symm
  · rw [h]; rfl

/-! ### JS `Math.min(...xs)` and `Math.max(...xs)` -/

/-- `Math.min(...xs)`; only applied to nonempty lists in the source
(guarded by `latencies.length > 0`), the `[]` case is arbitrary. -/
def jsMin : List ℚ → ℚ
  | [] => 0
  | x :: xs => xs.foldl min x

/-- `Math.max(...xs)`; only applied to nonempty lists in the source. -/
def jsMax : List ℚ → ℚ
  | [] => 0
  | x :: xs => xs.foldl max x

lemma foldl_min_le (xs : List ℚ) (a : ℚ) :
    xs.foldl min a ≤ a ∧ ∀ x ∈ xs, xs.foldl min a ≤ x := by
  induction xs generalizing a with
  | nil => simp
  | cons y ys ih =>
    refine ⟨?_, ?_⟩
    · simpa using le_trans (ih (min a y)).1 (min_le_left a y)
    · intro x hx
      rcases List.mem_cons.mp hx with rfl | hx
      · simpa using le_trans (ih (min a x)).1 (min_le_right a x)
      · simpa using (ih (min a y)).2 x hx

lemma foldl_min_mem (xs : List ℚ) (a : ℚ) :
    xs.foldl min a = a ∨ xs.foldl min a ∈ xs := by
  induction xs generalizing a with
  | nil => simp
  | cons y ys ih =>
    rcases ih (min a y) with h | h
    · rcases le_total a y with hay | hya
      · left; simpa [min_eq_left hay] using h
      · right; simp only [List.foldl_cons]
        rw [h, min_eq_right hya]
        exact List.mem_cons_self y ys
    · right
      simp only [List.foldl_cons]
      exact List.mem_cons_of_mem y h

lemma jsMin_le {l : List ℚ} (x : ℚ) (hx : x ∈ l) : jsMin l ≤ x := by
  cases l with
  | nil => cases hx
  | cons y ys =>
    rcases List.mem_cons.mp hx with rfl | hx
    · exact (foldl_min_le ys x).1
    · exact (foldl_min_le ys y).2 x hx

lemma jsMin_mem {l : List ℚ} (h : l ≠ []) : jsMin l ∈ l := by
  cases l with
  | nil => exact absurd rfl h
  | cons y ys =>
    rcases foldl_min_mem ys y with h1 | h1
    · rw [jsMin, h1]; exact List.mem_cons_self y ys
    · exact List.mem_cons_of_mem y h1

lemma foldl_max_ge (xs : List ℚ) (a : ℚ) :
    a ≤ xs.foldl max a ∧ ∀ x ∈ xs, x ≤ xs.foldl max a := by
  induction xs generalizing a with
  | nil => simp
  | cons y ys ih =>
    refine ⟨?_, ?_⟩
    · simpa using le_trans (le_max_left a y) (ih (max a y)).1
    · intro x hx
      rcases List.mem_cons.mp hx with rfl | hx
      · simpa using le_trans (le_max_right a x) (ih (max a x)).1
      · simpa using (ih (max a y)).2 x hx

lemma foldl_max_mem (xs : List ℚ) (a : ℚ) :
    xs.foldl max a = a ∨ xs.foldl max a ∈ xs := by
  induction xs generalizing a with
  | nil => simp
  | cons y ys ih =>
    rcases ih (max a y) with h | h
    · rcases le_total a y with hay | hya
      · right; simp only [List.foldl_cons]
        rw [h, max_eq_right hay]
        exact List.mem_cons_self y ys
      · left; simpa [max_eq_left hya] using h
    · right
      simp only [List.foldl_cons]
      exact List.mem_cons_of_mem y h

lemma jsMax_ge {l : List ℚ} (x : ℚ) (hx : x ∈ l) : x ≤ jsMax l := by
  cases l with
  | nil => cases hx
  | cons y ys =>
    rcases List.mem_cons.mp hx with rfl | hx
    · exact (foldl_max_ge ys x).1
    · exact (foldl_max_ge ys y).2 x hx

lemma jsMax_mem {l : List ℚ} (h : l ≠ []) : jsMax l ∈ l := by
  cases l with
  | nil => exact absurd rfl h
  | cons y ys =>
    rcases foldl_max_mem ys y with h1 | h1
    · rw [jsMax, h1]; exact List.mem_cons_self y ys
    · exact List.mem_cons_of_mem y h1

lemma jsMin_perm {l₁ l₂ : List ℚ} (h : l₁.Perm l₂) (hne : l₁ ≠ []) :
    jsMin l₁ = jsMin l₂ := by
  have hne₂ : l₂ ≠ [] := by
    intro hnil; rw [hnil] at h; exact hne h.eq_nil
  exact le_antisymm
    (jsMin_le _ (h.mem_iff.mpr (jsMin_mem hne₂)))
    (jsMin_le _ (h.mem_iff.mp (jsMin_mem hne)))

lemma jsMax_perm {l₁ l₂ : List ℚ} (h : l₁.Perm l₂) (hne : l₁ ≠ []) :
    jsMax l₁ = jsMax l₂ := by
  have hne₂ : l₂ ≠ [] := by
    intro hnil; rw [hnil] at h; exact hne h.eq_nil
  exact le_antisymm
    (jsMax_ge _ (h.mem_iff.mp (jsMax_mem hne)))
    (jsMax_ge _ (h.mem_iff.mpr (jsMax_mem hne₂)))

/-! ### Percentile computation (`computePercentiles` in `analytics.ts`) -/

/-- Shallow embedding of `computePercentiles` from `backend/src/analytics.ts`.
The JS function returns a record assigning a value to each requested target
percentile; the value at target `p` depends only on `data` and `p`, so the
embedding returns that value directly. -/
def computePercentiles (data : List ℚ) (p : ℚ) : ℚ :=
  if data = [] then 0
  else
    let sorted := sortAsc data
    let index : ℚ := p / 100 * ((sorted.length : ℚ) - 1)
    let lower : ℤ := ⌊index⌋
    let upper : ℤ := ⌈index⌉
    let fraction : ℚ := index - (lower : ℚ)
    if lower = upper then sorted.getD lower.toNat 0
    else sorted.getD lower.toNat 0 * (1 - fraction) +
      sorted.getD upper.toNat 0 * fraction

/-- The percentile contract exactly as the specification words it
(§4.1): empty input maps every target to 0; otherwise sort ascending,
take the fractional index `idx = (p/100) * (n-1)`, `lo = floor idx`,
`hi = ceil idx`, `frac = idx - lo`, and return `sorted[lo]` if `lo = hi`,
else `sorted[lo]*(1-frac) + sorted[hi]*frac`. -/
def specPercentile (samples : List ℚ) (p : ℚ) : ℚ :=
  if samples = [] then 0
  else
    let sorted := sortAsc samples
    let idx : ℚ := p / 100 * ((sorted.length : ℚ) - 1)
    let lo : ℤ := ⌊idx⌋
    let hi : ℤ := ⌈idx⌉
    let frac : ℚ := idx - (lo : ℚ)
    if lo = hi then sorted.getD lo.toNat 0
    else sorted.getD lo.toNat 0 * (1 - frac) + sorted.getD hi.toNat 0 * frac

lemma perm_nil_iff {α : Type} {l₁ l₂ : List α} (h : l₁.Perm l₂) :
    l₁ = [] ↔ l₂ = [] := by
  constructor <;> intro hx
  · refine List.length_eq_zero.mp ?_
    rw [← h.length_eq, hx, List.length_nil]
  · refine List.length_eq_zero.mp ?_
    rw [h.length_eq, hx, List.length_nil]

lemma jsMin_perm_all {l₁ l₂ : List ℚ} (h : l₁.Perm l₂) : jsMin l₁ = jsMin l₂ := by
  by_cases h1 : l₁ = []
  · rw [h1, (perm_nil_iff h).mp h1]
  · exact jsMin_perm h h1

lemma jsMax_perm_all {l₁ l₂ : List ℚ} (h : l₁.Perm l₂) : jsMax l₁ = jsMax l₂ := by
  by_cases h1 : l₁ = []
  · rw [h1, (perm_nil_iff h).mp h1]
  · exact jsMax_perm h h1

lemma computePercentiles_perm {l₁ l₂ : List ℚ} (h : l₁.Perm l₂) (p : ℚ) :
    computePercentiles l₁ p = computePercentiles l₂ p := by
  unfold computePercentiles
  have hs : sortAsc l₁ = sortAsc l₂ := sortAsc_eq_of_perm h
  by_cases h1 : l₁ = []
  · rw [if_pos h1, if_pos ((perm_nil_iff h).mp h1)]
  · rw [if_neg h1, if_neg (fun hx => h1 ((perm_nil_iff h).mpr hx)), hs]

/-! ### Rows of `api_requests` and the grouping of `getEndpointAnalytics` -/

/-- One row of the `api_requests` table as consumed by
`getEndpointAnalytics`, together with `created_at`, which the SQL layer
orders by. -/
structure Row where
  endpoint : String
  method : String
  latency_ms : ℚ
  request_size_bytes : ℤ
  status_code : ℤ
  created_at : ℤ
deriving DecidableEq

/-- The grouping key, JS `` `${row.endpoint}::${row.method}` ``. -/
def rowKey (r : Row) : String × String := (r.endpoint, r.method)

/-- Kernel-computable strict lexicographic comparison of character
lists by code point. -/
def charListLt : List Char → List Char → Bool
  | [], [] => false
  | [], _ :: _ => true
  | _ :: _, [] => false
  | a :: as, b :: bs =>
    if a.toNat < b.toNat then true
    else if b.toNat < a.toNat then false
    else charListLt as bs

/-- Strict lexicographic string comparison by code point — the collation
the SQL `ORDER BY` on the string columns is modelled with (which total
collation the store uses is irrelevant to the analytics result, see
`getEndpointAnalytics_perm`; only that it is one fixed total order). -/
def strLt (a b : String) : Bool := charListLt a.data b.data

lemma charListLt_irrefl : ∀ as, charListLt as as = false
  | [] => rfl
  | a :: as => by
    rw [charListLt]
    simp [Nat.lt_irrefl, charListLt_irrefl as]

lemma charListLt_trans : ∀ (as bs cs : List Char),
    charListLt as bs = true → charListLt bs cs = true →
    charListLt as cs = true
  | [], [], _, h1, _ => by cases h1
  | [], _ :: _, [], _, h2 => by cases h2
  | [], _ :: _, _ :: _, _, _ => rfl
  | _ :: _, [], _, h1, _ => by cases h1
  | _ :: _, _ :: _, [], _, h2 => by cases h2
  | a :: as, b :: bs, c :: cs, h1, h2 => by
    rw [charListLt] at h1 h2 ⊢
    by_cases hab : a.toNat < b.toNat
    · rw [if_pos hab] at h1
      by_cases hbc : b.toNat < c.toNat
      · rw [if_pos (hab.trans hbc)]
      · rw [if_neg hbc] at h2
        by_cases hcb : c.toNat < b.toNat
        · rw [if_pos hcb] at h2; cases h2
        · rw [if_pos (show a.toNat < c.toNat by omega)]
    · rw [if_neg hab] at h1
      by_cases hba : b.toNat < a.toNat
      · rw [if_pos hba] at h1; cases h1
      · rw [if_neg hba] at h1
        by_cases hbc : b.toNat < c.toNat
        · rw [if_pos (show a.toNat < c.toNat by omega)]
        · rw [if_neg hbc] at h2
          by_cases hcb : c.toNat < b.toNat
          · rw [if_pos hcb] at h2; cases h2
          · rw [if_neg hcb] at h2
            rw [if_neg (show ¬a.toNat < c.toNat by omega),
              if_neg (show ¬c.toNat < a.toNat by omega)]
            exact charListLt_trans as bs cs h1 h2

lemma charListLt_connex : ∀ (as bs : List Char),
    charListLt as bs = false → charListLt bs as = false → as = bs
  | [], [], _, _ => rfl
  | [], _ :: _, h1, _ => by cases h1
  | _ :: _, [], _, h2 => by cases h2
  | a :: as, b :: bs, h1, h2 => by
    rw [charListLt] at h1 h2
    by_cases hab : a.toNat < b.toNat
    · rw [if_pos hab] at h1; cases h1
    · by_cases hba : b.toNat < a.toNat
      · rw [if_pos hba] at h2; cases h2
      · rw [if_neg hab, if_neg hba] at h1
        rw [if_neg hba, if_neg hab] at h2
        have heqn : a.toNat = b.toNat := by omega
        have heq : a = b := Char.ext (UInt32.ext heqn)
        rw [heq, charListLt_connex as bs h1 h2]

lemma strLt_irrefl (a : String) : strLt a a = false := charListLt_irrefl a.data

lemma strLt_trans {a b c : String} (h1 : strLt a b = true)
    (h2 : strLt b c = true) : strLt a c = true :=
  charListLt_trans a.data b.data c.data h1 h2

lemma strLt_connex {a b : String} (h1 : strLt a b = false)
    (h2 : strLt b a = false) : a = b :=
  String.ext (charListLt_connex a.data b.data h1 h2)

lemma strLt_asymm {a b : String} (h1 : strLt a b = true)
    (h2 : strLt b a = true) : False := by
  have h := strLt_trans h1 h2
  rw [strLt_irrefl] at h
  cases h

/-- The SQL `ORDER BY endpoint, method, created_at` ordering of rows. -/
def rowLe (r₁ r₂ : Row) : Prop :=
  strLt r₁.endpoint r₂.endpoint = true ∨
    (r₁.endpoint = r₂.endpoint ∧
      (strLt r₁.method r₂.method = true ∨
        (r₁.method = r₂.method ∧ r₁.created_at ≤ r₂.created_at)))

instance : DecidableRel rowLe := fun r₁ r₂ => by
  unfold rowLe; infer_instance

instance : IsTotal Row rowLe :=
  ⟨fun a b => by
    unfold rowLe
    cases he1 : strLt a.endpoint b.endpoint with
    | true => exact Or.inl (Or.inl rfl)
    | false =>
      cases he2 : strLt b.endpoint a.endpoint with
      | true => exact Or.inr (Or.inl rfl)
      | false =>
        have he : a.endpoint = b.endpoint := strLt_connex he1 he2
        cases hm1 : strLt a.method b.method with
        | true => exact Or.inl (Or.inr ⟨he, Or.inl rfl⟩)
        | false =>
          cases hm2 : strLt b.method a.method with
          | true => exact Or.inr (Or.inr ⟨he.symm, Or.inl rfl⟩)
          | false =>
            have hm : a.method = b.method := strLt_connex hm1 hm2
            rcases le_total a.created_at b.created_at with hc | hc
            · exact Or.inl (Or.inr ⟨he, Or.inr ⟨hm, hc⟩⟩)
            · exact Or.inr (Or.inr ⟨he.symm, Or.inr ⟨hm.symm, hc⟩⟩)⟩

instance : IsTrans Row rowLe :=
  ⟨fun a b c hab hbc => by
    unfold rowLe at hab hbc ⊢
    rcases hab with h1 | ⟨he1, h1⟩
    · rcases hbc with h2 | ⟨he2, h2⟩
      · exact Or.inl (strLt_trans h1 h2)
      · exact Or.inl (he2 ▸ h1)
    · rcases hbc with h2 | ⟨he2, h2⟩
      · exact Or.inl (he1.symm ▸ h2)
      · refine Or.inr ⟨he1.trans he2, ?_⟩
        rcases h1 with hm1 | ⟨hm1, hc1⟩
        · rcases h2 with hm2 | ⟨hm2, hc2⟩
          · exact Or.inl (strLt_trans hm1 hm2)
          · exact Or.inl (hm2 ▸ hm1)
        · rcases h2 with hm2 | ⟨hm2, hc2⟩
          · exact Or.inl (hm1.symm ▸ hm2)
          · exact Or.inr ⟨hm1.trans hm2, hc1.trans hc2⟩⟩

/-- The induced lexicographic order on grouping keys. -/
def keyLe (k₁ k₂ : String × String) : Prop :=
  strLt k₁.1 k₂.1 = true ∨
    (k₁.1 = k₂.1 ∧ (strLt k₁.2 k₂.2 = true ∨ k₁.2 = k₂.2))

instance : DecidableRel keyLe := fun k₁ k₂ => by
  unfold keyLe; infer_instance

instance : IsAntisymm (String × String) keyLe :=
  ⟨fun a b hab hba => by
    rcases hab with h1 | ⟨h1, h2⟩
    · rcases hba with h3 | ⟨h3, h4⟩
      · exact (strLt_asymm h1 h3).elim
      · rw [h3] at h1
        rw [strLt_irrefl] at h1
        cases h1
    · rcases hba with h3 | ⟨h3, h4⟩
      · rw [h1] at h3
        rw [strLt_irrefl] at h3
        cases h3
      · rcases h2 with hs | hs
        · rcases h4 with ht | ht
          · exact (strLt_asymm hs ht).elim
          · rw [ht] at hs
            rw [strLt_irrefl] at hs
            cases hs
        · exact Prod.ext h1 hs⟩

lemma keyLe_of_rowLe {r₁ r₂ : Row} (h : rowLe r₁ r₂) :
    keyLe (rowKey r₁) (rowKey r₂) := by
  rcases h with h | ⟨he, h⟩
  · exact Or.inl h
  · rcases h with hm | ⟨hm, _⟩
    · exact Or.inr ⟨he, Or.inl hm⟩
    · exact Or.inr ⟨he, Or.inr hm⟩

/-- First-occurrence key sequence: a JS `Map` iterates its keys in
insertion order, i.e. in order of each key's first occurrence. -/
def firstKeys : List (String × String) → List (String × String)
  | [] => []
  | k :: ks => k :: (firstKeys ks).filter (fun k2 => decide (k2 ≠ k))

lemma firstKeys_sublist (ks : List (String × String)) :
    (firstKeys ks).Sublist ks := by
  induction ks with
  | nil => simp [firstKeys]
  | cons k ks ih =>
    rw [firstKeys]
    exact List.Sublist.cons₂ k ((List.filter_sublist _).trans ih)

lemma firstKeys_nodup (ks : List (String × String)) : (firstKeys ks).Nodup := by
  induction ks with
  | nil => simp [firstKeys]
  | cons k ks ih =>
    rw [firstKeys]
    refine List.nodup_cons.mpr ⟨?_, ih.filter _⟩
    intro hmem
    have hne := (List.mem_filter.mp hmem).2
    simp at hne

lemma mem_firstKeys {k : String × String} {ks : List (String × String)} :
    k ∈ firstKeys ks ↔ k ∈ ks := by
  induction ks with
  | nil => simp [firstKeys]
  | cons k0 ks ih =>
    rw [firstKeys]
    constructor
    · intro h
      rcases List.mem_cons.mp h with rfl | h
      · exact List.mem_cons_self _ _
      · exact List.mem_cons_of_mem _ (ih.mp (List.mem_filter.mp h).1)
    · intro h
      rcases List.mem_cons.mp h with rfl | h
      · exact List.mem_cons_self _ _
      · by_cases hk : k = k0
        · subst hk; exact List.mem_cons_self _ _
        · exact List.mem_cons_of_mem _
            (List.mem_filter.mpr ⟨ih.mpr h, by simpa using hk⟩)

lemma firstKeys_eq_of_perm_sorted {ks₁ ks₂ : List (String × String)}
    (hp : ks₁.Perm ks₂)
    (hs₁ : List.Pairwise keyLe ks₁) (hs₂ : List.Pairwise keyLe ks₂) :
    firstKeys ks₁ = firstKeys ks₂ := by
  apply List.eq_of_perm_of_sorted (r := keyLe)
  · apply List.perm_of_nodup_nodup_toFinset_eq (firstKeys_nodup _) (firstKeys_nodup _)
    ext a
    simp only [List.mem_toFinset, mem_firstKeys]
    exact hp.mem_iff
  · exact List.Pairwise.sublist (firstKeys_sublist _) hs₁
  · exact List.Pairwise.sublist (firstKeys_sublist _) hs₂

/-- The grouping step of `getEndpointAnalytics`: rows accumulate into a JS
`Map` keyed by `endpoint::method`; iterating the map yields the keys in
first-seen order, each group holding its rows in input order. -/
def groupRows (rows : List Row) : List ((String × String) × List Row) :=
  (firstKeys (rows.map rowKey)).map
    (fun k => (k, rows.filter (fun r => decide (rowKey r = k))))

/-- The square of `computeStdDev` from `analytics.ts`: the mean squared
deviation (divide by `n`, not `n-1`), `0` for fewer than 2 samples.  The
source returns `Math.sqrt` of this value, which is irrational in general;
the development carries the square instead — the square root is injective
on nonnegative values, so every equality proved about `stdDevSq` is
equivalent to the corresponding equality about `stdDev`. -/
def computeStdDevSq (data : List ℚ) (avg : ℚ) : ℚ :=
  if data.length < 2 then 0
  else ((data.map (fun v => (v - avg) ^ 2)).sum) / (data.length : ℚ)

/-- One element of the list `getEndpointAnalytics` returns (field
`stdDevSq` stands for the square of the source's `stdDev`, see
`computeStdDevSq`). -/
structure AnalyticsResult where
  endpoint : String
  method : String
  p50 : ℚ
  p95 : ℚ
  p99 : ℚ
  min : ℚ
  max : ℚ
  avg : ℚ
  stdDevSq : ℚ
  avg_payload_size : ℤ
  request_count : ℕ
  error_count : ℕ
  error_rate : ℚ
  success_rate : ℚ
deriving DecidableEq

/-- The per-group statistics block in the body of `getEndpointAnalytics`
(`errorCount` counts rows with `status_code === 0 || status_code >= 400`). -/
def groupStats (k : String × String) (rs : List Row) : AnalyticsResult :=
  let latencies := rs.map (fun r => r.latency_ms)
  let payloadSizes := rs.map (fun r => r.request_size_bytes)
  let errorCount :=
    rs.countP (fun r => decide (r.status_code = 0 ∨ 400 ≤ r.status_code))
  let avg :=
    if 0 < latencies.length then latencies.sum / (latencies.length : ℚ) else 0
  let mn := if 0 < latencies.length then jsMin latencies else 0
  let mx := if 0 < latencies.length then jsMax latencies else 0
  let avgPayloadSize :=
    if 0 < payloadSizes.length
    then ((payloadSizes.sum : ℚ)) / (payloadSizes.length : ℚ) else 0
  let errorRate :=
    if 0 < latencies.length
    then ((errorCount : ℚ) / (latencies.length : ℚ)) * 100 else 0
  { endpoint := k.1
    method := k.2
    p50 := computePercentiles latencies 50
    p95 := computePercentiles latencies 95
    p99 := computePercentiles latencies 99
    min := mn
    max := mx
    avg := avg
    stdDevSq := computeStdDevSq latencies avg
    avg_payload_size := jsRound avgPayloadSize
    request_count := latencies.length
    error_count := errorCount
    error_rate := round2 errorRate
    success_rate := round2 (100 - errorRate) }

/-- The final ordering `analytics.sort((a, b) => b.p95 - a.p95)`:
descending by `p95`. -/
def resLe (a b : AnalyticsResult) : Prop := b.p95 ≤ a.p95

instance : DecidableRel resLe := fun a b =>
  inferInstanceAs (Decidable (b.p95 ≤ a.p95))

instance : IsTotal AnalyticsResult resLe := ⟨fun a b => le_total b.p95 a.p95⟩

instance : IsTrans AnalyticsResult resLe :=
  ⟨fun _ _ _ h1 h2 => le_trans h2 h1⟩

/-- Shallow embedding of `getEndpointAnalytics` (`analytics.ts`): the SQL
layer hands over the selected rows ordered by
`ORDER BY endpoint, method, created_at`; the JS code then groups them by
`endpoint::method`, computes per-group statistics and sorts the result
descending by `p95` (JS `sort` is stable). -/
def getEndpointAnalytics (rows : List Row) : List AnalyticsResult :=
  let ordered := List.insertionSort rowLe rows
  List.insertionSort resLe
    ((groupRows ordered).map (fun g => groupStats g.1 g.2))

lemma computeStdDevSq_perm {l₁ l₂ : List ℚ} (h : l₁.Perm l₂) (a : ℚ) :
    computeStdDevSq l₁ a = computeStdDevSq l₂ a := by
  unfold computeStdDevSq
  rw [h.length_eq, (h.map (fun v => (v - a) ^ 2)).sum_eq]

lemma groupStats_perm (k : String × String) {rs₁ rs₂ : List Row}
    (h : rs₁.Perm rs₂) : groupStats k rs₁ = groupStats k rs₂ := by
  have hlat : (rs₁.map (fun r => r.latency_ms)).Perm
      (rs₂.map (fun r => r.latency_ms)) := h.map _
  have hpay : (rs₁.map (fun r => r.request_size_bytes)).Perm
      (rs₂.map (fun r => r.request_size_bytes)) := h.map _
  simp only [groupStats]
  rw [hlat.length_eq, hlat.sum_eq, hpay.length_eq, hpay.sum_eq,
    h.countP_eq, jsMin_perm_all hlat, jsMax_perm_all hlat,
    computePercentiles_perm hlat, computePercentiles_perm hlat,
    computePercentiles_perm hlat, computeStdDevSq_perm hlat]

/-- `getEndpointAnalytics` is invariant under permutations of its input
row set: the SQL `ORDER BY` normalises the row order up to ties, ties
only permute rows within one group, and every per-group statistic is
permutation-invariant (in exact arithmetic). -/
lemma getEndpointAnalytics_perm {rows₁ rows₂ : List Row}
    (h : rows₁.Perm rows₂) :
    getEndpointAnalytics rows₁ = getEndpointAnalytics rows₂ := by
  simp only [getEndpointAnalytics, groupRows]
  have hop : (List.insertionSort rowLe rows₁).Perm
      (List.insertionSort rowLe rows₂) :=
    (List.perm_insertionSort _ _).trans
      (h.trans (List.perm_insertionSort _ _).symm)
  have hs₁ : List.Pairwise rowLe (List.insertionSort rowLe rows₁) :=
    List.sorted_insertionSort _ _
  have hs₂ : List.Pairwise rowLe (List.insertionSort rowLe rows₂) :=
    List.sorted_insertionSort _ _
  have hkeys : firstKeys ((List.insertionSort rowLe rows₁).map rowKey) =
      firstKeys ((List.insertionSort rowLe rows₂).map rowKey) :=
    firstKeys_eq_of_perm_sorted (hop.map _)
      (hs₁.map _ (fun _ _ hr => keyLe_of_rowLe hr))
      (hs₂.map _ (fun _ _ hr => keyLe_of_rowLe hr))
  rw [hkeys, List.map_map, List.map_map]
  congr 1
  apply List.map_congr_left
  intro k hk
  simp only [Function.comp_apply]
  exact groupStats_perm k (hop.filter _)

/-! ### Latency histogram (`getLatencyHistogram` in `analytics.ts`) -/

/-- The `CASE` expression of `getLatencyHistogram`: the fixed latency
range a sample's `latency_ms` falls into. -/
def histBucket (lat : ℚ) : String :=
  if lat < 50 then "0-50ms"
  else if lat < 100 then "50-100ms"
  else if lat < 200 then "100-200ms"
  else if lat < 500 then "200-500ms"
  else if lat < 1000 then "500ms-1s"
  else "1s+"

/-- The bucket labels in the rank order of the `ORDER BY CASE` clause of
`getLatencyHistogram`. -/
def histBucketOrder : List String :=
  ["0-50ms", "50-100ms", "100-200ms", "200-500ms", "500ms-1s", "1s+"]

/-- Shallow embedding of `getLatencyHistogram`: SQL `GROUP BY bucket`
emits one group per bucket value that actually occurs among the selected
rows (a `GROUP BY` produces no empty groups), with `COUNT(*)` per group,
ordered by the `ORDER BY CASE` bucket rank. -/
def getLatencyHistogram (lats : List ℚ) : List (String × ℕ) :=
  histBucketOrder.filterMap (fun nm =>
    let c := lats.countP (fun lat => decide (histBucket lat = nm))
    if c = 0 then none else some (nm, c))

/-! ### `RequestResult` samples and the `Analytics` class -/

/-- One `RequestResult` sample (`types.ts`).  JS serialized payload and
body sizes are byte counts. -/
structure RequestResult where
  endpoint : String
  method : String
  latency_ms : ℚ
  request_size_bytes : ℤ
  response_size_bytes : ℤ
  status_code : ℤ
  error_message : Option String
  run_id : Option String
deriving DecidableEq

namespace Analytics

/-- `Analytics.percentile` (private method of the `Analytics` class):
the nth percentile of an already-sorted array by linear interpolation,
with explicit guards for empty and singleton arrays and for `upper`
running past the end. -/
def percentile (sortedArray : List ℚ) (p : ℚ) : ℚ :=
  if sortedArray = [] then 0
  else if sortedArray.length = 1 then sortedArray.getD 0 0
  else
    let index : ℚ := p / 100 * ((sortedArray.length : ℚ) - 1)
    let lower : ℤ := ⌊index⌋
    let upper : ℤ := ⌈index⌉
    let weight : ℚ := index - (lower : ℚ)
    if (sortedArray.length : ℤ) ≤ upper then
      sortedArray.getD (sortedArray.length - 1) 0
    else
      sortedArray.getD lower.toNat 0 * (1 - weight) +
        sortedArray.getD upper.toNat 0 * weight

/-- `PayloadBucket` (`types.ts`); the source stores `bucket_max = -1` to
encode `Infinity`. -/
structure PayloadBucket where
  bucket_min : ℚ
  bucket_max : ℚ
  p95 : ℚ
  count : ℕ
deriving DecidableEq

/-- The fixed byte ranges of `computePayloadBuckets`; `none` stands for
the open upper end (`Infinity`). -/
def bucketRanges : List (ℚ × Option ℚ) :=
  [(0, some 100), (100, some 500), (500, some 1000), (1000, some 5000),
    (5000, none)]

/-- `r.request_size_bytes >= min && r.request_size_bytes < max`
(a `<` comparison against `Infinity` is always true). -/
def inBucketRange (mn : ℚ) (mx : Option ℚ) (r : RequestResult) : Bool :=
  decide (mn ≤ (r.request_size_bytes : ℚ)) &&
    match mx with
    | none => true
    | some m => decide ((r.request_size_bytes : ℚ) < m)

/-- Shallow embedding of `Analytics.computePayloadBuckets`: filter to
POST samples, return `[]` early when there are none, then walk the fixed
ranges in order and emit a bucket only when the range holds at least one
sample (p95 of the bucket's sorted latencies, and its sample count). -/
def computePayloadBuckets (results : List RequestResult) :
    List PayloadBucket :=
  let postResults := results.filter (fun r => decide (r.method = "POST"))
  if postResults = [] then []
  else
    bucketRanges.filterMap (fun br =>
      let bucketResults := postResults.filter (inBucketRange br.1 br.2)
      if bucketResults = [] then none
      else
        let latencies := sortAsc (bucketResults.map (fun r => r.latency_ms))
        some { bucket_min := br.1
               bucket_max := match br.2 with | none => -1 | some m => m
               p95 := percentile latencies 95
               count := bucketResults.length })

end Analytics

/-! ### The probe executor (`makeRequest` in `runner.ts`) -/

/-- `EndpointConfig` (`types.ts`): `payloadBytes` is the UTF-8 byte
length of `JSON.stringify(payload)` (`none` when the endpoint carries no
payload) — the only use `makeRequest` makes of the payload value; the
`headers` field only decorates the outgoing request and is omitted. -/
structure EndpointConfig where
  url : String
  method : String
  payloadBytes : Option ℕ
deriving DecidableEq

/-- The outcome of the single `await axios(config)` call, split the way
`makeRequest` classifies it: a response arrived (any status code —
`validateStatus: () => true` turns no status into an exception;
`dataBytes` is the byte length of the serialized body, `none` when the
body is absent/falsy), an axios error still carrying a response, an
axios error whose request went out but got no response (connection
refused, DNS failure, timeout), an axios error during request setup, or
a non-axios error. -/
inductive AxiosOutcome where
  | response (status : ℤ) (dataBytes : Option ℕ)
  | errorResponse (status : ℤ) (dataBytes : Option ℕ)
  | noResponse (msg : String)
  | setupError (msg : String)
  | unknownError (msg : String)
deriving DecidableEq

/-- Shallow embedding of `makeRequest` (`backend/src/runner.ts`, the run
aware version carrying `error_message` and `run_id`).  The monotonic
clock pair is modelled by `elapsedMs`, the wall-clock time measured from
dispatch up to the response or the failure point.  The function never
throws: every transport outcome is converted into a `RequestResult`. -/
def makeRequest (endpoint : EndpointConfig) (outcome : AxiosOutcome)
    (elapsedMs : ℚ) (runId : Option String) : RequestResult :=
  let request_size_bytes : ℤ :=
    if (endpoint.method = "POST" ∨ endpoint.method = "PUT" ∨
        endpoint.method = "PATCH") ∧ endpoint.payloadBytes.isSome
    then (endpoint.payloadBytes.getD 0 : ℤ)
    else 0
  match outcome with
  | .response status dataBytes =>
      { endpoint := endpoint.url
        method := endpoint.method
        latency_ms := elapsedMs
        request_size_bytes := request_size_bytes
        response_size_bytes := (dataBytes.getD 0 : ℤ)
        status_code := status
        error_message := none
        run_id := runId }
  | .errorResponse status dataBytes =>
      { endpoint := endpoint.url
        method := endpoint.method
        latency_ms := elapsedMs
        request_size_bytes := request_size_bytes
        response_size_bytes := (dataBytes.getD 0 : ℤ)
        status_code := status
        error_message := none
        run_id := runId }
  | .noResponse msg =>
      { endpoint := endpoint.url
        method := endpoint.method
        latency_ms := elapsedMs
        request_size_bytes := request_size_bytes
        response_size_bytes := 0
        status_code := 0
        error_message := some ("Request timeout or network error: " ++ msg)
        run_id := runId }
  | .setupError msg =>
      { endpoint := endpoint.url
        method := endpoint.method
        latency_ms := elapsedMs
        request_size_bytes := request_size_bytes
        response_size_bytes := 0
        status_code := 0
        error_message := some ("Request setup error: " ++ msg)
        run_id := runId }
  | .unknownError msg =>
      { endpoint := endpoint.url
        method := endpoint.method
        latency_ms := elapsedMs
        request_size_bytes := request_size_bytes
        response_size_bytes := 0
        status_code := 0
        error_message := some ("Unknown error: " ++ msg)
        run_id := runId }

/-! ### Run lifecycle (`createAndStartRun` / `runEndpointTests`) -/

/-- The `test_runs.status` values. -/
inductive RunStatus where
  | pending
  | running
  | completed
  | failed
deriving DecidableEq

/-- One store write issued by the run controller, in issue order:
`createTestRun` inserts the run row with status `'pending'`;
`updateTestRunStatus` sets `'running'` (together with `started_at`) or a
terminal status (together with `completed_at`); `insertRequestResult`
appends one sample. -/
inductive RunEvent where
  | runCreated
  | statusSet (status : RunStatus)
  | sampleInserted (r : RequestResult)
deriving DecidableEq

/-- The store writes of the strictly sequential per-endpoint,
per-request probe loop of `runEndpointTests`: one `insertRequestResult`
per probe whose insert the store accepted (a failing insert is caught in
the source and the loop continues, so that sample is simply not
persisted).  `outcome e i` gives the transport outcome and the measured
elapsed time of probe `i` (0-based) of endpoint `e`; `persistOk e i`
tells whether the store accepted that sample's insert. -/
def probeLoopEvents (endpoints : List EndpointConfig) (requestCount : ℕ)
    (runId : Option String) (outcome : ℕ → ℕ → AxiosOutcome × ℚ)
    (persistOk : ℕ → ℕ → Bool) : List RunEvent :=
  endpoints.enum.flatMap (fun ei =>
    (List.range requestCount).filterMap (fun i =>
      let result :=
        makeRequest ei.2 (outcome ei.1 i).1 (outcome ei.1 i).2 runId
      if persistOk ei.1 i then some (RunEvent.sampleInserted result)
      else none))

/-- The sequence of store writes issued by `runEndpointTests` (store
status updates are modelled as reliable): status `'running'` first —
only when a `runId` was passed — then the `try` block.  With
`makeRequest` total and a failing `insertRequestResult` caught inside
the loop, the only way the `try` block can throw is an unrecoverable
controller error (e.g. the store becoming structurally unavailable);
`fault = some k` injects one such error escaping the per-endpoint loop
after the first `k` of its store writes, upon which the source's
`catch` sets status `'failed'` and rethrows; `fault = none` lets the
loop run to the end, ending in status `'completed'`. -/
def runEndpointTestsEvents (endpoints : List EndpointConfig)
    (requestCount : ℕ) (runId : Option String)
    (outcome : ℕ → ℕ → AxiosOutcome × ℚ) (persistOk : ℕ → ℕ → Bool)
    (fault : Option ℕ) : List RunEvent :=
  (if runId.isSome then [RunEvent.statusSet .running] else []) ++
    (match fault with
     | none =>
        probeLoopEvents endpoints requestCount runId outcome persistOk ++
          (if runId.isSome then [RunEvent.statusSet .completed] else [])
     | some k =>
        (probeLoopEvents endpoints requestCount runId outcome
            persistOk).take k ++
          (if runId.isSome then [RunEvent.statusSet .failed] else []))

/-- The store writes of `createAndStartRun`: `createTestRun` writes the
run row (status `'pending'`), then `runEndpointTests` runs with the new
`runId`; when it rejects (exactly the `fault = some _` traces, since
its internal `catch` rethrows), the `.catch` handler of
`createAndStartRun` writes status `'failed'` once more. -/
def createAndStartRunEvents (endpoints : List EndpointConfig)
    (requestCount : ℕ) (runId : String)
    (outcome : ℕ → ℕ → AxiosOutcome × ℚ) (persistOk : ℕ → ℕ → Bool)
    (fault : Option ℕ) : List RunEvent :=
  RunEvent.runCreated ::
    (runEndpointTestsEvents endpoints requestCount (some runId) outcome
        persistOk fault ++
      (match fault with
       | none => []
       | some _ => [RunEvent.statusSet .failed]))

/-- The status a store write assigns to `test_runs.status`, if any
(`'pending'` from creation, the written status from each
`updateTestRunStatus`). -/
def statusOf : RunEvent → Option RunStatus
  | .runCreated => some .pending
  | .statusSet s => some s
  | .sampleInserted _ => none

/-- The run's status history: the successive values of
`test_runs.status`. -/
def statusHistory (events : List RunEvent) : List RunStatus :=
  events.filterMap statusOf

/-- Whether a store write is a sample insert. -/
def isSampleEvent : RunEvent → Bool
  | .sampleInserted _ => true
  | _ => false

/-- How many samples were persisted for the run. -/
def sampleCount (events : List RunEvent) : ℕ :=
  events.countP isSampleEvent

/-! ### The admission gate (`rateLimit` middleware in `server.ts`) -/

/-- One entry of the in-memory `requestCounts` map. -/
structure RateRecord where
  count : ℕ
  resetTime : ℤ
deriving DecidableEq

/-- `requestCounts.get(ip)` on the association-list model of the map. -/
def mapGet (m : List (String × RateRecord)) (ip : String) :
    Option RateRecord :=
  match m.find? (fun e => decide (e.1 = ip)) with
  | none => none
  | some e => some e.2

/-- `requestCounts.set(ip, v)`: replace the entry in place, or append a
new key. -/
def mapSet (m : List (String × RateRecord)) (ip : String)
    (v : RateRecord) : List (String × RateRecord) :=
  match m with
  | [] => [(ip, v)]
  | e :: rest => if e.1 = ip then (ip, v) :: rest else e :: mapSet rest ip v

/-- Shallow embedding of the `rateLimit` middleware.  Result `none`
means the attempt is admitted (`next()` runs); `some retryAfter` means
it is rejected with HTTP 429 and the hint
`retryAfter = Math.ceil((record.resetTime - now) / 1000)` seconds.
`limitN` is `RATE_LIMIT_REQUESTS` (default 30), `windowMs` is
`RATE_LIMIT_WINDOW_MS` (default 3600000). -/
def rateLimit (m : List (String × RateRecord)) (ip : String) (now : ℤ)
    (limitN : ℕ) (windowMs : ℤ) :
    List (String × RateRecord) × Option ℤ :=
  match mapGet m ip with
  | none => (mapSet m ip ⟨1, now + windowMs⟩, none)
  | some record =>
      if record.resetTime < now then
        (mapSet m ip ⟨1, now + windowMs⟩, none)
      else if limitN ≤ record.count then
        (m, some ⌈((record.resetTime - now : ℤ) : ℚ) / 1000⌉)
      else
        (mapSet m ip ⟨record.count + 1, record.resetTime⟩, none)

/-- Feed a sequence of run-creation attempts `(ip, time)` through the
gate in order, collecting each attempt's decision. -/
def rateLimitSeq (m : List (String × RateRecord)) (limitN : ℕ)
    (windowMs : ℤ) : List (String × ℤ) → List (Option ℤ)
  | [] => []
  | a :: rest =>
      let step := rateLimit m a.1 a.2 limitN windowMs
      step.2 :: rateLimitSeq step.1 limitN windowMs rest

/-! ### `POST /api/run` (`server.ts`) -/

/-- The duck-typed JSON shape of one element of `req.body.endpoints`, as
far as the handler's validation inspects it.  `url = none` models a
missing or non-string `url`; `urlParses` is whether `new URL(url)`
succeeds; `method = none` a missing method; the `payload`/`headers`
fields are modelled by presence and `typeof x === 'object'` flags. -/
structure EndpointInput where
  url : Option String
  urlParses : Bool
  method : Option String
  hasPayload : Bool
  payloadIsObject : Bool
  hasHeaders : Bool
  headersIsObject : Bool
deriving DecidableEq

/-- The request body `{ endpoints, requestCount }`: `endpoints = none`
models a missing or non-array field, `requestCount = none` an absent
field (the handler defaults it to 50). -/
structure RunRequestBody where
  endpoints : Option (List EndpointInput)
  requestCount : Option ℤ
deriving DecidableEq

def validMethods : List String := ["GET", "POST", "PUT", "PATCH", "DELETE"]

/-- The validation sequence of the `POST /api/run` handler, in source
order; `some err` is the message of the 400 response, `none` means the
body passed every check. -/
def validateRunBody (body : RunRequestBody) : Option String :=
  match body.endpoints with
  | none => some "Invalid request"
  | some eps =>
      if eps = [] then some "Invalid request"
      else if 10 < eps.length then some "Too many endpoints"
      else if body.requestCount.getD 50 < 1 ∨ 200 < body.requestCount.getD 50
      then some "Invalid request count"
      else
        eps.findSome? (fun ep =>
          match ep.url with
          | none => some "Each endpoint must have a valid url string"
          | some _ =>
              if !ep.urlParses then some "Invalid URL"
              else
                match ep.method with
                | none => some "Each endpoint must have a valid method"
                | some m =>
                    if !(validMethods.contains m) then
                      some "Each endpoint must have a valid method"
                    else if (m = "POST" ∨ m = "PUT" ∨ m = "PATCH") ∧
                        ep.hasPayload ∧ !ep.payloadIsObject then
                      some "Payload must be a valid object"
                    else if ep.hasHeaders ∧ !ep.headersIsObject then
                      some "Headers must be a valid object"
                    else none)

/-- The mutable server state touched by `POST /api/run`: the rate-limit
map and the run store (the statuses of the created runs, in creation
order). -/
structure ServerState where
  rateMap : List (String × RateRecord)
  runs : List RunStatus
deriving DecidableEq

/-- Shallow embedding of one `POST /api/run` request: the `rateLimit`
middleware runs first (it mutates the per-caller counter and either
responds 429 or calls `next()`); only then does the handler validate the
body (responding 400 on a failure) and, when everything passes, create
the run row (`'pending'`) and kick off probing.  Returns the new server
state and the HTTP status of the response. -/
def handleRunRequest (st : ServerState) (ip : String) (now : ℤ)
    (limitN : ℕ) (windowMs : ℤ) (body : RunRequestBody) :
    ServerState × ℕ :=
  let gate := rateLimit st.rateMap ip now limitN windowMs
  match gate.2 with
  | some _ => ({ st with rateMap := gate.1 }, 429)
  | none =>
      match validateRunBody body with
      | some _ => ({ st with rateMap := gate.1 }, 400)
      | none =>
          ({ rateMap := gate.1, runs := st.runs ++ [RunStatus.pending] }, 200)

/-! ### Concrete instances used by the claim theorems below -/

/-- 32 samples to one endpoint, exactly one of which errors (status 500):
`errorRate = 100/32 = 3.125`, whose two-decimal rounding interacts with
`successRate = 96.875` at the half-way point. -/
def c2ErrRow (i : ℕ) : Row :=
  { endpoint := "https://api.example.com/b", method := "GET",
    latency_ms := 10, request_size_bytes := 0,
    status_code := if i = 0 then 500 else 200, created_at := (i : ℤ) }

def c2Rows : List Row := (List.range 32).map c2ErrRow

def c2SingleRow : Row :=
  { endpoint := "https://api.example.com/a", method := "GET",
    latency_ms := 10, request_size_bytes := 0, status_code := 200,
    created_at := 0 }

/-- The single analytics group `getEndpointAnalytics [c2SingleRow]`
produces. -/
def c2SingleRes : AnalyticsResult :=
  { endpoint := "https://api.example.com/a", method := "GET",
    p50 := 10, p95 := 10, p99 := 10, min := 10, max := 10, avg := 10,
    stdDevSq := 0, avg_payload_size := 0, request_count := 1,
    error_count := 0, error_rate := 0, success_rate := 100 }

def c4RowA : Row :=
  { endpoint := "https://a.example/one", method := "GET",
    latency_ms := 10, request_size_bytes := 0, status_code := 200,
    created_at := 0 }

def c4RowB : Row :=
  { endpoint := "https://a.example/two", method := "POST",
    latency_ms := 20, request_size_bytes := 64, status_code := 201,
    created_at := 1 }

def c3Body : RunRequestBody := { endpoints := some [], requestCount := none }

def c3State : ServerState := { rateMap := [], runs := [] }

def c6Endpoint : EndpointConfig :=
  { url := "https://api.example.com/x", method := "GET", payloadBytes := none }

def c7Endpoint : EndpointConfig :=
  { url := "https://api.example.com/e", method := "GET", payloadBytes := none }

def c10Post : RequestResult :=
  { endpoint := "https://api.example.com/p", method := "POST",
    latency_ms := 12, request_size_bytes := 50, response_size_bytes := 0,
    status_code := 200, error_message := none, run_id := none }

/-! ### Generic helper lemmas -/

lemma map_filterMap_sublist {α β γ : Type} (f : α → Option β) (g : β → γ)
    (h : α → γ) (hfg : ∀ a b, f a = some b → g b = h a) :
    ∀ l : List α, ((l.filterMap f).map g).Sublist (l.map h)
  | [] => by simp
  | a :: l => by
    cases hfa : f a with
    | none =>
      rw [List.filterMap_cons_none hfa, List.map_cons]
      exact (map_filterMap_sublist f g h hfg l).cons _
    | some b =>
      rw [List.filterMap_cons_some hfa, List.map_cons, List.map_cons,
        hfg a b hfa]
      exact (map_filterMap_sublist f g h hfg l).cons₂ _

/-! ### C1 — the latency histogram -/

/-- C1, counterexample: a sample set whose latencies all fall in one
range yields a single histogram bucket, not six — SQL `GROUP BY` emits
no zero-count groups. -/
theorem getLatencyHistogram_single_bucket_cx :
    getLatencyHistogram [10] = [("0-50ms", 1)] ∧
      (getLatencyHistogram [10]).length ≠ 6 := by
  constructor
  · rfl
  · decide

/-- C1 (amended): for every sample set, the latency histogram returns
one bucket per fixed latency range that contains at least one sample, in
ascending range order (hence between 0 and 6 buckets); each returned
bucket carries the exact count of samples in its range, zero-count
ranges are omitted, and every nonempty range does appear. -/
theorem getLatencyHistogram_buckets (lats : List ℚ) :
    ((getLatencyHistogram lats).map Prod.fst).Sublist histBucketOrder ∧
    (∀ p ∈ getLatencyHistogram lats,
      p.2 = lats.countP (fun lat => decide (histBucket lat = p.1)) ∧
        0 < p.2) ∧
    (∀ nm ∈ histBucketOrder,
      0 < lats.countP (fun lat => decide (histBucket lat = nm)) →
      (nm, lats.countP (fun lat => decide (histBucket lat = nm))) ∈
        getLatencyHistogram lats) := by
  refine ⟨?_, ?_, ?_⟩
  · have hsub := map_filterMap_sublist
      (f := fun nm => if lats.countP (fun lat => decide (histBucket lat = nm)) = 0
        then none
        else some (nm, lats.countP (fun lat => decide (histBucket lat = nm))))
      (g := Prod.fst) (h := id) ?_ histBucketOrder
    · simpa [getLatencyHistogram] using hsub
    · intro nm p hp
      dsimp only at hp
      by_cases hc : lats.countP (fun lat => decide (histBucket lat = nm)) = 0
      · rw [if_pos hc] at hp; cases hp
      · rw [if_neg hc] at hp
        cases hp
        rfl
  · intro p hp
    rw [getLatencyHistogram, List.mem_filterMap] at hp
    obtain ⟨nm, _, hf⟩ := hp
    dsimp only at hf
    by_cases hc : lats.countP (fun lat => decide (histBucket lat = nm)) = 0
    · rw [if_pos hc] at hf; cases hf
    · rw [if_neg hc] at hf
      cases hf
      exact ⟨rfl, Nat.pos_of_ne_zero hc⟩
  · intro nm hnm hpos
    rw [getLatencyHistogram, List.mem_filterMap]
    refine ⟨nm, hnm, ?_⟩
    dsimp only
    rw [if_neg (Nat.pos_iff_ne_zero.mp hpos)]

/-- C1 witness: the amended bucket facts evaluated on the concrete
single-sample set `[10]`. -/
theorem getLatencyHistogram_buckets_witness :
    ("0-50ms", 1).2 =
        List.countP (fun lat => decide (histBucket lat = ("0-50ms", 1).1)) [10] ∧
      0 < ("0-50ms", 1).2 :=
  (getLatencyHistogram_buckets [10]).2.1 ("0-50ms", 1) (by decide)

/-! ### C2 — error rate + success rate -/

lemma mem_getEndpointAnalytics {rows : List Row} {g : AnalyticsResult}
    (hg : g ∈ getEndpointAnalytics rows) : ∃ k rs, g = groupStats k rs := by
  simp only [getEndpointAnalytics] at hg
  have hmem := (List.perm_insertionSort resLe _).mem_iff.mp hg
  obtain ⟨gp, _, hgeq⟩ := List.mem_map.mp hmem
  exact ⟨gp.1, gp.2, hgeq.symm⟩

lemma groupStats_rate_sum (k : String × String) (rs : List Row) :
    (groupStats k rs).error_rate + (groupStats k rs).success_rate =
      100 + (if Int.fract (((groupStats k rs).error_count : ℚ) /
          ((groupStats k rs).request_count : ℚ) * 100 * 100) = 1/2
        then 1/100 else 0) := by
  simp only [groupStats]
  rw [round2_pair]
  by_cases hl : 0 < (rs.map (fun r => r.latency_ms)).length
  · rw [if_pos hl]
  · rw [if_neg hl]
    have hlen : (rs.map (fun r => r.latency_ms)).length = 0 :=
      Nat.eq_zero_of_not_pos hl
    simp only [hlen, Nat.cast_zero, div_zero, zero_mul, Int.fract_zero]

/-- C2 (amended): for every group the analytics summary produces,
`error_rate + success_rate` equals exactly 100 — except when the
underlying error percentage, scaled to two-decimal precision
(`errorCount/total·100·100`), lands exactly on a half-integer; then JS
`Math.round` rounds both the error half and the success half up and the
sum is `100.01`.  In particular the sum always lies within `0.01` of
100. -/
theorem analytics_rate_sum (rows : List Row) :
    ∀ g ∈ getEndpointAnalytics rows,
      g.error_rate + g.success_rate =
        100 + (if Int.fract ((g.error_count : ℚ) /
            (g.request_count : ℚ) * 100 * 100) = 1/2
          then 1/100 else 0) := by
  intro g hg
  obtain ⟨k, rs, rfl⟩ := mem_getEndpointAnalytics hg
  exact groupStats_rate_sum k rs

/-- C2, counterexample: 32 samples to one endpoint with exactly 1 error
give `errorRate = 3.125`; the summary's only group has
`error_rate = 3.13` and `success_rate = 96.88`, whose sum is `100.01`,
not 100. -/
theorem analytics_rate_sum_cx :
    (getEndpointAnalytics c2Rows).map
        (fun g => g.error_rate + g.success_rate) = [10001/100] ∧
      ((10001 : ℚ)/100) ≠ 100 := by
  constructor
  · decide
  · decide

/-- C2 witness: the amended sum identity evaluated on a concrete
single-sample group (sum is exactly 100 there). -/
theorem analytics_rate_sum_witness :
    c2SingleRes.error_rate + c2SingleRes.success_rate =
      100 + (if Int.fract ((c2SingleRes.error_count : ℚ) /
          (c2SingleRes.request_count : ℚ) * 100 * 100) = 1/2
        then 1/100 else 0) :=
  analytics_rate_sum [c2SingleRow] c2SingleRes (by decide)

/-! ### C3 — invalid run creation -/

/-- C3, counterexample: a run-creation request with an empty endpoint
list is rejected with 400 and creates no Run — but the Admission Gate's
per-caller counter has already been consumed: the `rateLimit` middleware
updates it before the handler's validation runs. -/
theorem handleRunRequest_invalid_cx :
    (handleRunRequest c3State "1.2.3.4" 0 30 3600000 c3Body).2 = 400 ∧
    (handleRunRequest c3State "1.2.3.4" 0 30 3600000 c3Body).1.runs =
      c3State.runs ∧
    (handleRunRequest c3State "1.2.3.4" 0 30 3600000 c3Body).1.rateMap ≠
      c3State.rateMap := by
  refine ⟨rfl, rfl, ?_⟩
  decide

/-- C3 (amended): every run-creation request whose body fails validation
is rejected synchronously — HTTP 400, or 429 when the gate rejects it
first — and no Run record is created; the Admission Gate's per-caller
counter, however, is updated by the rate-limit middleware before
validation runs, so a rejected request still consumes quota. -/
theorem handleRunRequest_invalid (st : ServerState) (ip : String) (now : ℤ)
    (limitN : ℕ) (windowMs : ℤ) (body : RunRequestBody)
    (hbad : (validateRunBody body).isSome = true) :
    (handleRunRequest st ip now limitN windowMs body).1.runs = st.runs ∧
      ((handleRunRequest st ip now limitN windowMs body).2 = 400 ∨
        (handleRunRequest st ip now limitN windowMs body).2 = 429) := by
  simp only [handleRunRequest]
  cases hg : (rateLimit st.rateMap ip now limitN windowMs).2 with
  | some r => exact ⟨rfl, Or.inr rfl⟩
  | none =>
    cases hv : validateRunBody body with
    | none => rw [hv] at hbad; simp at hbad
    | some e => exact ⟨rfl, Or.inl rfl⟩

/-- C3 witness: the amended rejection facts on a concrete invalid body. -/
theorem handleRunRequest_invalid_witness :
    (handleRunRequest c3State "9.9.9.9" 5 30 3600000 c3Body).1.runs =
        c3State.runs ∧
      ((handleRunRequest c3State "9.9.9.9" 5 30 3600000 c3Body).2 = 400 ∨
        (handleRunRequest c3State "9.9.9.9" 5 30 3600000 c3Body).2 = 429) :=
  handleRunRequest_invalid c3State "9.9.9.9" 5 30 3600000 c3Body (by decide)

/-! ### C4 — determinism and order independence of the summary -/

/-- C4: the analytics summary is deterministic and order-independent:
any permutation of the sample set yields the identical result list —
same groups, same statistics, same output order (the SQL `ORDER BY`
normalises the row order before grouping, and every statistic is
permutation-invariant in exact arithmetic). -/
theorem getEndpointAnalytics_order_independent (rows₁ rows₂ : List Row)
    (h : rows₁.Perm rows₂) :
    getEndpointAnalytics rows₁ = getEndpointAnalytics rows₂ :=
  getEndpointAnalytics_perm h

/-- C4 witness: the summary of two concrete samples does not change when
they are swapped. -/
theorem getEndpointAnalytics_order_independent_witness :
    getEndpointAnalytics [c4RowA, c4RowB] =
      getEndpointAnalytics [c4RowB, c4RowA] :=
  getEndpointAnalytics_order_independent _ _ (by decide)

/-! ### C5 — the percentile contract -/

lemma sorted_head_le {y : ℚ} {ys : List ℚ}
    (hs : List.Sorted (· ≤ ·) (y :: ys)) : ∀ x ∈ y :: ys, y ≤ x := by
  intro x hx
  rcases List.mem_cons.mp hx with rfl | hx
  · exact le_refl x
  · exact (List.pairwise_cons.mp hs).1 x hx

lemma sorted_le_getLast {s : List ℚ} (h : s ≠ [])
    (hs : List.Sorted (· ≤ ·) s) : ∀ x ∈ s, x ≤ s.getLast h := by
  intro x hx
  obtain ⟨i, hi, hxi⟩ := List.getElem_of_mem hx
  subst hxi
  rw [List.getLast_eq_getElem]
  rcases Nat.lt_or_ge i (s.length - 1) with hlt | hge
  · exact List.pairwise_iff_getElem.mp hs i (s.length - 1) hi (by omega) hlt
  · have hieq : i = s.length - 1 := by omega
    subst hieq
    exact le_refl _

lemma sortAsc_getD_zero {l : List ℚ} (h : l ≠ []) :
    (sortAsc l).getD 0 0 = jsMin l := by
  have hs : sortAsc l ≠ [] := fun hx => h (sortAsc_eq_nil_iff.mp hx)
  have hsorted := sortAsc_sorted l
  have hperm := sortAsc_perm l
  cases hsl : sortAsc l with
  | nil => exact absurd hsl hs
  | cons y ys =>
    rw [hsl] at hsorted hperm
    simp only [List.getD_cons_zero]
    have hy : y ∈ l := hperm.mem_iff.mp (List.mem_cons_self y ys)
    apply le_antisymm
    · exact sorted_head_le hsorted _ (hperm.mem_iff.mpr (jsMin_mem h))
    · exact jsMin_le y hy

lemma sortAsc_getD_last {l : List ℚ} (h : l ≠ []) :
    (sortAsc l).getD ((sortAsc l).length - 1) 0 = jsMax l := by
  have hs : sortAsc l ≠ [] := fun hx => h (sortAsc_eq_nil_iff.mp hx)
  have hlen : 0 < (sortAsc l).length := List.length_pos.mpr hs
  rw [List.getD_eq_getElem _ _ (by omega)]
  rw [← List.getLast_eq_getElem _ hs]
  apply le_antisymm
  · exact jsMax_ge _ ((sortAsc_perm l).mem_iff.mp (List.getLast_mem hs))
  · exact sorted_le_getLast hs (sortAsc_sorted l) _
      ((sortAsc_perm l).mem_iff.mpr (jsMax_mem h))

/-- C5: the percentile engine satisfies its contract: the empty input
maps every target to 0; on any input the computation agrees with the
specification formula (`specPercentile`); percentile 0 of a nonempty
input is its minimum and percentile 100 its maximum; and a singleton
input yields its element at every target. -/
theorem computePercentiles_contract :
    (∀ p : ℚ, computePercentiles [] p = 0) ∧
    (∀ (data : List ℚ) (p : ℚ),
      computePercentiles data p = specPercentile data p) ∧
    (∀ data : List ℚ, data ≠ [] → computePercentiles data 0 = jsMin data) ∧
    (∀ data : List ℚ, data ≠ [] →
      computePercentiles data 100 = jsMax data) ∧
    (∀ x p : ℚ, computePercentiles [x] p = x) := by
  refine ⟨?_, ?_, ?_, ?_, ?_⟩
  · intro p; rfl
  · intro data p; rfl
  · intro data h
    have hmain : computePercentiles data 0 = (sortAsc data).getD 0 0 := by
      simp only [computePercentiles, if_neg h]
      have hidx : (0 : ℚ) / 100 * (((sortAsc data).length : ℚ) - 1) = 0 := by
        ring
      simp [hidx]
    rw [hmain, sortAsc_getD_zero h]
  · intro data h
    have hlen : 0 < (sortAsc data).length :=
      List.length_pos.mpr (fun hx => h (sortAsc_eq_nil_iff.mp hx))
    have h1 : (1 : ℕ) ≤ (sortAsc data).length := hlen
    have hidx : (100 : ℚ) / 100 * (((sortAsc data).length : ℚ) - 1) =
        (((sortAsc data).length - 1 : ℕ) : ℚ) := by
      rw [Nat.cast_sub h1, Nat.cast_one]; ring
    have hmain : computePercentiles data 100 =
        (sortAsc data).getD ((sortAsc data).length - 1) 0 := by
      simp only [computePercentiles, if_neg h]
      simp [hidx]
    rw [hmain, sortAsc_getD_last h]
  · intro x p
    have hsx : sortAsc [x] = [x] := rfl
    simp [computePercentiles, hsx]

/-- C5 witness: percentile 0 and percentile 100 of a concrete list are
its min and max. -/
theorem computePercentiles_contract_witness :
    computePercentiles [30, 10, 20] 0 = jsMin [30, 10, 20] ∧
      computePercentiles [30, 10, 20] 100 = jsMax [30, 10, 20] :=
  ⟨computePercentiles_contract.2.2.1 [30, 10, 20] (by decide),
   computePercentiles_contract.2.2.2.1 [30, 10, 20] (by decide)⟩

/-! ### C6 — the probe executor -/

/-- C6: `makeRequest` is total — every transport outcome produces a
Sample for the probed endpoint, with the measured elapsed time as its
latency — and when the request was dispatched but no response arrived
the Sample records `statusCode 0`, `responseSizeBytes 0`, and a
non-empty human-readable `errorMessage`, while `latencyMs` still equals
the elapsed time up to the failure point (so it is nonzero whenever any
time elapsed). -/
theorem makeRequest_contract (endpoint : EndpointConfig)
    (outcome : AxiosOutcome) (elapsedMs : ℚ) (runId : Option String) :
    (makeRequest endpoint outcome elapsedMs runId).endpoint = endpoint.url ∧
    (makeRequest endpoint outcome elapsedMs runId).method =
      endpoint.method ∧
    (makeRequest endpoint outcome elapsedMs runId).latency_ms = elapsedMs ∧
    (∀ msg, outcome = AxiosOutcome.noResponse msg →
      (makeRequest endpoint outcome elapsedMs runId).status_code = 0 ∧
      (makeRequest endpoint outcome elapsedMs runId).response_size_bytes
        = 0 ∧
      (makeRequest endpoint outcome elapsedMs runId).error_message =
        some ("Request timeout or network error: " ++ msg) ∧
      ∀ s, (makeRequest endpoint outcome elapsedMs runId).error_message =
        some s → s ≠ "") := by
  cases outcome with
  | response st db => exact ⟨rfl, rfl, rfl, fun msg hmsg => by cases hmsg⟩
  | errorResponse st db =>
    exact ⟨rfl, rfl, rfl, fun msg hmsg => by cases hmsg⟩
  | noResponse m =>
    refine ⟨rfl, rfl, rfl, fun msg hmsg => ?_⟩
    cases hmsg
    refine ⟨rfl, rfl, rfl, fun s hs => ?_⟩
    cases hs
    intro hempty
    have hlen := congrArg String.length hempty
    rw [String.length_append] at hlen
    have hplen : ("Request timeout or network error: " : String).length
        = 34 := rfl
    have hnil : ("" : String).length = 0 := rfl
    omega
  | setupError m => exact ⟨rfl, rfl, rfl, fun msg hmsg => by cases hmsg⟩
  | unknownError m => exact ⟨rfl, rfl, rfl, fun msg hmsg => by cases hmsg⟩

/-- C6 witness: a concrete connection-refused probe yields a Sample with
status 0, empty body, the elapsed latency, and a non-empty error. -/
theorem makeRequest_contract_witness :
    (makeRequest c6Endpoint
        (AxiosOutcome.noResponse "connect ECONNREFUSED") 25
        (some "run_1")).status_code = 0 ∧
    (makeRequest c6Endpoint
        (AxiosOutcome.noResponse "connect ECONNREFUSED") 25
        (some "run_1")).response_size_bytes = 0 ∧
    (makeRequest c6Endpoint
        (AxiosOutcome.noResponse "connect ECONNREFUSED") 25
        (some "run_1")).error_message =
      some ("Request timeout or network error: " ++
        "connect ECONNREFUSED") ∧
    ∀ s, (makeRequest c6Endpoint
        (AxiosOutcome.noResponse "connect ECONNREFUSED") 25
        (some "run_1")).error_message = some s → s ≠ "" :=
  (makeRequest_contract c6Endpoint
      (AxiosOutcome.noResponse "connect ECONNREFUSED") 25
      (some "run_1")).2.2.2 "connect ECONNREFUSED" rfl

/-! ### C7 — the run lifecycle -/

lemma probeLoopEvents_mem {endpoints : List EndpointConfig}
    {requestCount : ℕ} {runId : Option String}
    {outcome : ℕ → ℕ → AxiosOutcome × ℚ} {persistOk : ℕ → ℕ → Bool}
    {e : RunEvent}
    (he : e ∈ probeLoopEvents endpoints requestCount runId outcome
      persistOk) :
    ∃ r, e = RunEvent.sampleInserted r := by
  rw [probeLoopEvents, List.mem_flatMap] at he
  obtain ⟨ei, _, he⟩ := he
  rw [List.mem_filterMap] at he
  obtain ⟨i, _, hf⟩ := he
  dsimp only at hf
  by_cases hp : persistOk ei.1 i = true
  · rw [if_pos hp] at hf
    cases hf
    exact ⟨_, rfl⟩
  · rw [if_neg hp] at hf
    cases hf

lemma probeLoopEvents_statusHistory (endpoints : List EndpointConfig)
    (requestCount : ℕ) (runId : Option String)
    (outcome : ℕ → ℕ → AxiosOutcome × ℚ) (persistOk : ℕ → ℕ → Bool) :
    (probeLoopEvents endpoints requestCount runId outcome
      persistOk).filterMap statusOf = [] := by
  rw [List.filterMap_eq_nil_iff]
  intro e he
  obtain ⟨r, rfl⟩ := probeLoopEvents_mem he
  rfl

lemma createAndStartRun_statusHistory (endpoints : List EndpointConfig)
    (requestCount : ℕ) (runId : String)
    (outcome : ℕ → ℕ → AxiosOutcome × ℚ) (persistOk : ℕ → ℕ → Bool) :
    statusHistory (createAndStartRunEvents endpoints requestCount runId
      outcome persistOk none) =
      [RunStatus.pending, RunStatus.running, RunStatus.completed] := by
  rw [statusHistory, createAndStartRunEvents, runEndpointTestsEvents]
  simp [List.filterMap_cons, List.filterMap_append,
    probeLoopEvents_statusHistory, statusOf]

lemma probeLoopEvents_take_statusHistory (endpoints : List EndpointConfig)
    (requestCount : ℕ) (runId : Option String)
    (outcome : ℕ → ℕ → AxiosOutcome × ℚ) (persistOk : ℕ → ℕ → Bool)
    (k : ℕ) :
    ((probeLoopEvents endpoints requestCount runId outcome
      persistOk).take k).filterMap statusOf = [] := by
  rw [List.filterMap_eq_nil_iff]
  intro e he
  obtain ⟨r, rfl⟩ := probeLoopEvents_mem (List.mem_of_mem_take he)
  rfl

lemma createAndStartRun_statusHistory_fault
    (endpoints : List EndpointConfig) (requestCount : ℕ) (runId : String)
    (outcome : ℕ → ℕ → AxiosOutcome × ℚ) (persistOk : ℕ → ℕ → Bool)
    (k : ℕ) :
    statusHistory (createAndStartRunEvents endpoints requestCount runId
      outcome persistOk (some k)) =
      [RunStatus.pending, RunStatus.running, RunStatus.failed,
        RunStatus.failed] := by
  rw [statusHistory, createAndStartRunEvents, runEndpointTestsEvents]
  simp [List.filterMap_cons, List.filterMap_append,
    probeLoopEvents_take_statusHistory, statusOf]

lemma filterMap_some_length {α β : Type} (g : α → β) (l : List α) :
    (l.filterMap (fun a => some (g a))).length = l.length := by
  induction l with
  | nil => rfl
  | cons a l ih => simp [List.filterMap_cons, ih]

lemma flatMap_const_length {α β : Type} (f : α → List β) (n : ℕ)
    (hf : ∀ a, (f a).length = n) :
    ∀ l : List α, (l.flatMap f).length = l.length * n
  | [] => by simp
  | a :: l => by
    rw [List.flatMap_cons, List.length_append, hf,
      flatMap_const_length f n hf l, List.length_cons]
    ring

lemma probeLoopEvents_length (endpoints : List EndpointConfig)
    (requestCount : ℕ) (runId : Option String)
    (outcome : ℕ → ℕ → AxiosOutcome × ℚ) {persistOk : ℕ → ℕ → Bool}
    (hp : ∀ a b, persistOk a b = true) :
    (probeLoopEvents endpoints requestCount runId outcome
      persistOk).length = endpoints.length * requestCount := by
  rw [probeLoopEvents]
  have hinner : ∀ ei : ℕ × EndpointConfig,
      ((List.range requestCount).filterMap (fun i =>
        let result :=
          makeRequest ei.2 (outcome ei.1 i).1 (outcome ei.1 i).2 runId
        if persistOk ei.1 i then some (RunEvent.sampleInserted result)
        else none)).length = requestCount := by
    intro ei
    rw [List.filterMap_congr (g := fun i => some (RunEvent.sampleInserted
        (makeRequest ei.2 (outcome ei.1 i).1 (outcome ei.1 i).2 runId)))
      (fun i _ => by dsimp only; rw [if_pos (hp ei.1 i)])]
    rw [filterMap_some_length, List.length_range]
  rw [flatMap_const_length _ requestCount hinner endpoints.enum,
    List.enum_length]

lemma createAndStartRun_sampleCount (endpoints : List EndpointConfig)
    (requestCount : ℕ) (runId : String)
    (outcome : ℕ → ℕ → AxiosOutcome × ℚ) :
    sampleCount (createAndStartRunEvents endpoints requestCount runId
      outcome (fun _ _ => true) none) =
      endpoints.length * requestCount := by
  rw [sampleCount, createAndStartRunEvents, runEndpointTestsEvents]
  have hloop : (probeLoopEvents endpoints requestCount (some runId)
      outcome (fun _ _ => true)).countP isSampleEvent =
      (probeLoopEvents endpoints requestCount (some runId) outcome
        (fun _ _ => true)).length :=
    List.countP_eq_length.mpr (fun e he => by
      obtain ⟨r, rfl⟩ := probeLoopEvents_mem he; rfl)
  simp only [Option.isSome_some, if_true, List.countP_cons,
    List.countP_append, hloop,
    probeLoopEvents_length endpoints requestCount (some runId) outcome
      (fun _ _ => rfl)]
  simp [isSampleEvent]

/-- C7: a run's store writes follow the strict forward-only lifecycle,
on the failing traces as well as the completing ones: the run row is
created `'pending'`; `'running'` is set (together with `started_at`)
before the first probe's sample is written; every event between the
`'running'` write and the terminal writes is a sample insert, and the
terminal writes are a single `'completed'` (normal completion) or the
`'failed'` write of `runEndpointTests`'s catch handler followed by the
duplicate `'failed'` write of `createAndStartRun`'s `.catch`; in every
trace the status history is `pending`, `running`, then one terminal
status — `completed` or `failed` — repeated to the end, so a terminal
status is reached exactly once and never left; a run that completes
normally ends `'completed'`, and with every insert accepted it persists
`endpoints × requestCount` samples — in particular a 1-endpoint run
with `requestCount = 5` that completes normally ends `'completed'` with
exactly 5 samples for its `runId`. -/
theorem run_lifecycle (endpoints : List EndpointConfig) (requestCount : ℕ)
    (runId : String) (outcome : ℕ → ℕ → AxiosOutcome × ℚ)
    (persistOk : ℕ → ℕ → Bool) (fault : Option ℕ) :
    (∃ probes term,
      createAndStartRunEvents endpoints requestCount runId outcome
          persistOk fault =
        RunEvent.runCreated :: RunEvent.statusSet RunStatus.running ::
          (probes ++ term) ∧
      (∀ e ∈ probes, ∃ r, e = RunEvent.sampleInserted r) ∧
      (term = [RunEvent.statusSet RunStatus.completed] ∨
        term = [RunEvent.statusSet RunStatus.failed,
          RunEvent.statusSet RunStatus.failed])) ∧
    (∃ t k, (t = RunStatus.completed ∨ t = RunStatus.failed) ∧ 1 ≤ k ∧
      statusHistory (createAndStartRunEvents endpoints requestCount runId
          outcome persistOk fault) =
        [RunStatus.pending, RunStatus.running] ++ List.replicate k t) ∧
    statusHistory (createAndStartRunEvents endpoints requestCount runId
        outcome persistOk none) =
      [RunStatus.pending, RunStatus.running, RunStatus.completed] ∧
    sampleCount (createAndStartRunEvents endpoints requestCount runId
        outcome (fun _ _ => true) none) =
      endpoints.length * requestCount ∧
    ∀ ep : EndpointConfig,
      sampleCount (createAndStartRunEvents [ep] 5 runId outcome
          (fun _ _ => true) none) = 5 ∧
      (statusHistory (createAndStartRunEvents [ep] 5 runId outcome
          (fun _ _ => true) none)).getLast? = some RunStatus.completed := by
  refine ⟨?_, ?_, createAndStartRun_statusHistory _ _ _ _ _,
    createAndStartRun_sampleCount _ _ _ _, fun ep => ⟨?_, ?_⟩⟩
  · cases fault with
    | none =>
      refine ⟨probeLoopEvents endpoints requestCount (some runId) outcome
          persistOk, [RunEvent.statusSet RunStatus.completed], ?_,
        fun e he => probeLoopEvents_mem he, Or.inl rfl⟩
      rw [createAndStartRunEvents, runEndpointTestsEvents]
      simp
    | some k =>
      refine ⟨(probeLoopEvents endpoints requestCount (some runId) outcome
          persistOk).take k,
        [RunEvent.statusSet RunStatus.failed,
          RunEvent.statusSet RunStatus.failed], ?_,
        fun e he => probeLoopEvents_mem (List.mem_of_mem_take he),
        Or.inr rfl⟩
      rw [createAndStartRunEvents, runEndpointTestsEvents]
      simp [List.append_assoc]
  · cases fault with
    | none =>
      refine ⟨RunStatus.completed, 1, Or.inl rfl, le_refl 1, ?_⟩
      rw [createAndStartRun_statusHistory]
      rfl
    | some k =>
      refine ⟨RunStatus.failed, 2, Or.inr rfl, by omega, ?_⟩
      rw [createAndStartRun_statusHistory_fault]
      rfl
  · rw [createAndStartRun_sampleCount]
    simp
  · rw [createAndStartRun_statusHistory]
    rfl

/-- C7 witness: the lifecycle facts evaluated on a concrete 5-request,
1-endpoint run — on its normally completing trace and on a trace where
an unrecoverable error escapes the loop after 2 store writes. -/
theorem run_lifecycle_witness :
    statusHistory (createAndStartRunEvents [c7Endpoint] 5 "run_w"
        (fun _ _ => (AxiosOutcome.response 200 none, 12))
        (fun _ _ => true) none) =
      [RunStatus.pending, RunStatus.running, RunStatus.completed] ∧
    sampleCount (createAndStartRunEvents [c7Endpoint] 5 "run_w"
        (fun _ _ => (AxiosOutcome.response 200 none, 12))
        (fun _ _ => true) none) = 5 ∧
    ∃ t k, (t = RunStatus.completed ∨ t = RunStatus.failed) ∧ 1 ≤ k ∧
      statusHistory (createAndStartRunEvents [c7Endpoint] 5 "run_w"
          (fun _ _ => (AxiosOutcome.response 200 none, 12))
          (fun _ _ => true) (some 2)) =
        [RunStatus.pending, RunStatus.running] ++ List.replicate k t :=
  ⟨(run_lifecycle [c7Endpoint] 5 "run_w"
      (fun _ _ => (AxiosOutcome.response 200 none, 12))
      (fun _ _ => true) none).2.2.1,
   ((run_lifecycle [c7Endpoint] 5 "run_w"
      (fun _ _ => (AxiosOutcome.response 200 none, 12))
      (fun _ _ => true) none).2.2.2.2 c7Endpoint).1,
   (run_lifecycle [c7Endpoint] 5 "run_w"
      (fun _ _ => (AxiosOutcome.response 200 none, 12))
      (fun _ _ => true) (some 2)).2.1⟩

/-! ### C8 — the admission gate -/

lemma rateLimit_fresh {m : List (String × RateRecord)} {ip : String}
    {now : ℤ} {limitN : ℕ} {windowMs : ℤ} (h : mapGet m ip = none) :
    rateLimit m ip now limitN windowMs =
      (mapSet m ip ⟨1, now + windowMs⟩, none) := by
  rw [rateLimit, h]

lemma rateLimit_expired {m : List (String × RateRecord)} {ip : String}
    {now : ℤ} {limitN : ℕ} {windowMs : ℤ} {r : RateRecord}
    (h : mapGet m ip = some r) (hlt : r.resetTime < now) :
    rateLimit m ip now limitN windowMs =
      (mapSet m ip ⟨1, now + windowMs⟩, none) := by
  rw [rateLimit, h]
  dsimp only
  rw [if_pos hlt]

lemma rateLimit_under {m : List (String × RateRecord)} {ip : String}
    {now : ℤ} {limitN : ℕ} {windowMs : ℤ} {r : RateRecord}
    (h : mapGet m ip = some r) (hle : ¬r.resetTime < now)
    (hcount : ¬limitN ≤ r.count) :
    rateLimit m ip now limitN windowMs =
      (mapSet m ip ⟨r.count + 1, r.resetTime⟩, none) := by
  rw [rateLimit, h]
  dsimp only
  rw [if_neg hle, if_neg hcount]

lemma rateLimit_reject {m : List (String × RateRecord)} {ip : String}
    {now : ℤ} {limitN : ℕ} {windowMs : ℤ} {r : RateRecord}
    (h : mapGet m ip = some r) (hle : ¬r.resetTime < now)
    (hcount : limitN ≤ r.count) :
    rateLimit m ip now limitN windowMs =
      (m, some ⌈((r.resetTime - now : ℤ) : ℚ) / 1000⌉) := by
  rw [rateLimit, h]
  dsimp only
  rw [if_neg hle, if_pos hcount]

lemma mapGet_cons_self (ip : String) (v : RateRecord)
    (rest : List (String × RateRecord)) :
    mapGet ((ip, v) :: rest) ip = some v := by
  unfold mapGet
  rw [List.find?_cons_of_pos _ (by simp)]

lemma mapSet_cons_self (ip : String) (v w : RateRecord)
    (rest : List (String × RateRecord)) :
    mapSet ((ip, v) :: rest) ip w = (ip, w) :: rest := by
  rw [mapSet]
  dsimp only
  rw [if_pos rfl]

lemma rateLimit_scenario (ip : String) (windowMs : ℤ) (t0 t1 t2 t3 : ℤ)
    (h1 : t1 ≤ t0 + windowMs) (h2 : t2 ≤ t0 + windowMs)
    (h3 : t0 + windowMs < t3) :
    rateLimitSeq [] 2 windowMs [(ip, t0), (ip, t1), (ip, t2), (ip, t3)] =
      [none, none, some ⌈((t0 + windowMs - t2 : ℤ) : ℚ) / 1000⌉, none] := by
  simp only [rateLimitSeq]
  rw [rateLimit_fresh (rfl : mapGet [] ip = none)]
  dsimp only
  rw [show mapSet [] ip (⟨1, t0 + windowMs⟩ : RateRecord) =
    [(ip, ⟨1, t0 + windowMs⟩)] from rfl]
  rw [rateLimit_under (mapGet_cons_self ip ⟨1, t0 + windowMs⟩ [])
    (not_lt.mpr h1) (by norm_num)]
  dsimp only
  rw [mapSet_cons_self]
  rw [rateLimit_reject (mapGet_cons_self ip ⟨2, t0 + windowMs⟩ [])
    (not_lt.mpr h2) (by norm_num)]
  dsimp only
  rw [rateLimit_expired (mapGet_cons_self ip ⟨2, t0 + windowMs⟩ []) h3]

/-- C8: the Admission Gate behaves as specified for every caller and
every configuration `limitN` per `windowMs`: an attempt with no existing
record, or after the window has elapsed, starts a fresh window with
count 1 and is admitted; within the window an attempt is admitted while
the stored count is below the limit (incrementing it) and rejected once
the count has reached the limit, with a retry-after hint of
`⌈remaining window time / 1000⌉` seconds and no state change; and in
the concrete `limitN = 2` scenario the first two attempts are admitted,
the third (still inside the window) is rejected with the remaining-time
hint, and an attempt after the window elapses is admitted again. -/
theorem rateLimit_gate (m : List (String × RateRecord)) (ip : String)
    (now : ℤ) (limitN : ℕ) (windowMs : ℤ) :
    (mapGet m ip = none →
      rateLimit m ip now limitN windowMs =
        (mapSet m ip ⟨1, now + windowMs⟩, none)) ∧
    (∀ r : RateRecord, mapGet m ip = some r → r.resetTime < now →
      rateLimit m ip now limitN windowMs =
        (mapSet m ip ⟨1, now + windowMs⟩, none)) ∧
    (∀ r : RateRecord, mapGet m ip = some r → ¬r.resetTime < now →
      r.count < limitN →
      rateLimit m ip now limitN windowMs =
        (mapSet m ip ⟨r.count + 1, r.resetTime⟩, none)) ∧
    (∀ r : RateRecord, mapGet m ip = some r → ¬r.resetTime < now →
      limitN ≤ r.count →
      rateLimit m ip now limitN windowMs =
        (m, some ⌈((r.resetTime - now : ℤ) : ℚ) / 1000⌉)) ∧
    (∀ t0 t1 t2 t3 : ℤ, t1 ≤ t0 + windowMs → t2 ≤ t0 + windowMs →
      t0 + windowMs < t3 →
      rateLimitSeq [] 2 windowMs
          [(ip, t0), (ip, t1), (ip, t2), (ip, t3)] =
        [none, none, some ⌈((t0 + windowMs - t2 : ℤ) : ℚ) / 1000⌉,
          none]) :=
  ⟨fun h => rateLimit_fresh h,
   fun _ h hlt => rateLimit_expired h hlt,
   fun _ h hle hcount => rateLimit_under h hle (not_le.mpr hcount),
   fun _ h hle hcount => rateLimit_reject h hle hcount,
   fun t0 t1 t2 t3 h1 h2 h3 => rateLimit_scenario ip windowMs t0 t1 t2 t3
     h1 h2 h3⟩

/-- C8 witness: the `limitN = 2` scenario at concrete times — third
attempt inside the window rejected with a 3600-second hint, an attempt
after the window admitted. -/
theorem rateLimit_gate_witness :
    rateLimitSeq [] 2 3600000
        [("c", 0), ("c", 10), ("c", 20), ("c", 3600001)] =
      [none, none, some ⌈(((0 : ℤ) + 3600000 - 20 : ℤ) : ℚ) / 1000⌉,
        none] :=
  (rateLimit_gate [] "c" 0 2 3600000).2.2.2.2 0 10 20 3600001
    (by decide) (by decide) (by decide)

/-! ### C9 — ranking by p95 -/

/-- C9: the result list of the analytics summary is sorted descending by
`p95`: for any two positions in the list the earlier group's `p95` is at
least the later one's — so whenever one group's p95 exceeds another's,
the larger-p95 group appears earlier. -/
theorem analytics_sorted_by_p95 (rows : List Row) :
    List.Pairwise (fun a b => b.p95 ≤ a.p95) (getEndpointAnalytics rows) := by
  show List.Sorted resLe (getEndpointAnalytics rows)
  simp only [getEndpointAnalytics]
  exact List.sorted_insertionSort resLe _

/-! ### C10 — payload buckets -/

/-- C10: `computePayloadBuckets` uses only POST-method samples (its
result is unchanged by restricting the input to POST samples, and a
POST-free input yields `[]`); the returned buckets' lower bounds form a
subsequence of the fixed ascending range bounds `0, 100, 500, 1000,
5000`; every returned bucket corresponds to one fixed range holding at
least one POST sample and carries that range's exact sample count and
the p95 of its sorted latencies; and every fixed range holding at least
one POST sample does appear. -/
theorem computePayloadBuckets_contract (results : List RequestResult) :
    (Analytics.computePayloadBuckets results =
      Analytics.computePayloadBuckets
        (results.filter (fun r => decide (r.method = "POST")))) ∧
    (results.filter (fun r => decide (r.method = "POST")) = [] →
      Analytics.computePayloadBuckets results = []) ∧
    ((Analytics.computePayloadBuckets results).map
        (fun b => b.bucket_min)).Sublist
      (Analytics.bucketRanges.map (fun br => br.1)) ∧
    (∀ b ∈ Analytics.computePayloadBuckets results, ∃ mn mx,
      (mn, mx) ∈ Analytics.bucketRanges ∧ b.bucket_min = mn ∧
      (results.filter (fun r => decide (r.method = "POST"))).filter
          (Analytics.inBucketRange mn mx) ≠ [] ∧
      b.count = ((results.filter (fun r => decide (r.method = "POST"))).filter
          (Analytics.inBucketRange mn mx)).length ∧
      b.p95 = Analytics.percentile
        (sortAsc (((results.filter (fun r => decide (r.method = "POST"))).filter
          (Analytics.inBucketRange mn mx)).map (fun r => r.latency_ms)))
        95) ∧
    (∀ mn mx, (mn, mx) ∈ Analytics.bucketRanges →
      (results.filter (fun r => decide (r.method = "POST"))).filter
        (Analytics.inBucketRange mn mx) ≠ [] →
      ∃ b ∈ Analytics.computePayloadBuckets results, b.bucket_min = mn) := by
  have hff : (results.filter (fun r => decide (r.method = "POST"))).filter
      (fun r => decide (r.method = "POST")) =
      results.filter (fun r => decide (r.method = "POST")) := by
    rw [List.filter_filter]
    exact List.filter_congr (fun a _ => Bool.and_self _)
  refine ⟨?_, ?_, ?_, ?_, ?_⟩
  · simp only [Analytics.computePayloadBuckets, hff]
  · intro h
    simp [Analytics.computePayloadBuckets, h]
  · simp only [Analytics.computePayloadBuckets]
    by_cases hpost : results.filter (fun r => decide (r.method = "POST")) = []
    · rw [if_pos hpost]
      exact List.nil_sublist _
    · rw [if_neg hpost]
      exact map_filterMap_sublist _ _ _ (fun br b hb => by
        by_cases hbe : (results.filter
            (fun r => decide (r.method = "POST"))).filter
            (Analytics.inBucketRange br.1 br.2) = []
        · rw [if_pos hbe] at hb; cases hb
        · rw [if_neg hbe] at hb
          cases hb
          rfl) _
  · intro b hb
    simp only [Analytics.computePayloadBuckets] at hb
    by_cases hpost : results.filter (fun r => decide (r.method = "POST")) = []
    · rw [if_pos hpost] at hb
      cases hb
    · rw [if_neg hpost] at hb
      rw [List.mem_filterMap] at hb
      obtain ⟨br, hbr, hf⟩ := hb
      by_cases hbe : (results.filter
          (fun r => decide (r.method = "POST"))).filter
          (Analytics.inBucketRange br.1 br.2) = []
      · rw [if_pos hbe] at hf; cases hf
      · rw [if_neg hbe] at hf
        cases hf
        exact ⟨br.1, br.2, hbr, rfl, hbe, rfl, rfl⟩
  · intro mn mx hmem hne
    have hpost : results.filter (fun r => decide (r.method = "POST")) ≠ [] := by
      intro hx
      rw [hx] at hne
      exact hne rfl
    simp only [Analytics.computePayloadBuckets, if_neg hpost]
    refine ⟨⟨mn, match mx with | none => -1 | some m => m,
      Analytics.percentile (sortAsc
        (((results.filter (fun r => decide (r.method = "POST"))).filter
          (Analytics.inBucketRange mn mx)).map (fun r => r.latency_ms))) 95,
      ((results.filter (fun r => decide (r.method = "POST"))).filter
        (Analytics.inBucketRange mn mx)).length⟩, ?_, rfl⟩
    rw [List.mem_filterMap]
    refine ⟨(mn, mx), hmem, ?_⟩
    dsimp only
    rw [if_neg hne]
    cases mx <;> rfl

/-- C10 witness: the bucket facts evaluated on a concrete one-POST-sample
input. -/
theorem computePayloadBuckets_contract_witness :
    ([c10Post].filter (fun r => decide (r.method = "POST")) = [] →
      Analytics.computePayloadBuckets [c10Post] = []) ∧
    ∃ b ∈ Analytics.computePayloadBuckets [c10Post], b.bucket_min = 0 :=
  ⟨(computePayloadBuckets_contract [c10Post]).2.1,
   (computePayloadBuckets_contract [c10Post]).2.2.2.2 0 (some 100)
     (by decide) (by decide)⟩
